import Mathlib

/-!
Verification development for the NeuraFormAI voice capture/segmentation/control
subsystem (`chat_ui/voice_recorder.py`) and the typed command path
(`chat_ui/center/chat_input.py`).

The Python code is shallowly embedded: strings are `String`/`List Char`,
wall-clock times are integer milliseconds (`Nat`), audio frames are abstract
`Bool × Nat` pairs (VAD classification, arrival time), and the worker loop of
`VoiceRecorder._run_loop` is an explicit recursion over the sequence of raw
transcripts returned by successive transcription calls.  The Python string
operations (`str.strip`, `str.lower`, the `re` patterns) are modelled for the
ASCII range, which covers every string the specification mentions.
-/

namespace NeuraForm

/-- Python whitespace for `str.strip` and `\s` (ASCII range):
space, tab, newline, carriage return, vertical tab, form feed. -/
def isPySpace (c : Char) : Bool :=
  c == ' ' || c == '\t' || c == '\n' || c == '\r' ||
  c == Char.ofNat 11 || c == Char.ofNat 12

/-- Python `str.strip()`: drop whitespace from both ends. -/
def pyStrip (l : List Char) : List Char :=
  ((l.dropWhile isPySpace).reverse.dropWhile isPySpace).reverse

/-- Python `str.lower()` (ASCII range). -/
def pyLower (l : List Char) : List Char :=
  l.map Char.toLower

/-- Python `\w` word character (ASCII range): alphanumeric or underscore. -/
def isWordChar (c : Char) : Bool :=
  c.isAlphanum || c == '_'

/-- The sanitisation step of the voice command path
(`re.sub(r'[^\w\s-]', '', name).strip()` in `VoiceRecorder._run_loop`):
remove every character outside word characters, whitespace and hyphen,
then trim surrounding whitespace. -/
def sanitize (l : List Char) : List Char :=
  pyStrip (l.filter (fun c => isWordChar c || isPySpace c || c == '-'))

/-- Matching `(.+)$` at the current position of a Python regex without
DOTALL: `.` matches any character except newline, greedily, and `$`
accepts the end of the string or a single trailing newline.  Returns the
captured group on success. -/
def dotPlusDollar (r : List Char) : Option (List Char) :=
  let p := r.takeWhile (fun c => c != '\n')
  let e := r.dropWhile (fun c => c != '\n')
  if p.isEmpty then none
  else if e.isEmpty || e == ['\n'] then some p
  else none

/-- Matching the tail `\s*(.+)$` after at least one whitespace character has
already been consumed by `\s+`: greedily consume further whitespace, falling
back (regex backtracking) to starting the group earlier on failure. -/
def sPlusGroupAux : List Char → Option (List Char)
  | [] => none
  | c :: rest =>
    if isPySpace c then
      match sPlusGroupAux rest with
      | some g => some g
      | none => dotPlusDollar (c :: rest)
    else dotPlusDollar (c :: rest)

/-- Matching `\s+(.+)$` at the current position: at least one whitespace
character, then the greedy group. -/
def sPlusGroup : List Char → Option (List Char)
  | [] => none
  | c :: rest =>
    if isPySpace c then
      match sPlusGroupAux rest with
      | some g => some g
      | none => dotPlusDollar (c :: rest)
    else none

/-- The command grammar `re.match(r"^(?:switch|swap)\s+to\s+(.+)$", text)`
shared by `VoiceRecorder._run_loop` and `ChatInput.send_message`.  The
alternation is deterministic (no string starts with both keywords), and the
`\s+` before the literal `to` is deterministic because `t` is not whitespace,
so the greedy maximal whitespace run is the only candidate.  Returns the
captured group (the `.+` suffix) on a match. -/
def matchSwitchSwap (l : List Char) : Option (List Char) :=
  let afterKw : Option (List Char) :=
    if List.isPrefixOf "switch".data l then some (l.drop 6)
    else if List.isPrefixOf "swap".data l then some (l.drop 4)
    else none
  match afterKw with
  | none => none
  | some r1 =>
    match r1 with
    | [] => none
    | c :: _ =>
      if isPySpace c then
        let r2 := r1.dropWhile isPySpace
        if List.isPrefixOf "to".data r2 then
          sPlusGroup (r2.drop 2)
        else none
      else none

/-- Normalisation applied to every transcript before dispatch
(`self._transcribe(audio).strip().lower()` in `VoiceRecorder._run_loop`). -/
def normalizeText (raw : String) : String :=
  String.mk (pyLower (pyStrip raw.data))

/-- The complete voice command extraction pipeline: normalise the raw
transcript, match the command grammar, sanitise the captured persona name.
Returns the persona name handed to `PersonaService.select_persona`, or
`none` when the transcript is not a command. -/
def voiceParse (raw : String) : Option String :=
  match matchSwitchSwap (normalizeText raw).data with
  | some g => some (String.mk (sanitize g))
  | none => none

example : voiceParse "Switch to Aria" = some "aria" := by decide
example : voiceParse "swap   to  aria!!" = some "aria" := by decide
example : voiceParse "switching to aria" = none := by decide
example : voiceParse "hello there" = none := by decide
example : matchSwitchSwap "switch to to x".data = some "to x".data := by decide
example : matchSwitchSwap "switch  too  x".data = none := by decide

/-! ## Utterance segmenter (`VoiceRecorder._record_until_silence`)

An audio frame is reduced to the two pieces of information the endpointing
loop inspects: its VAD classification (`Bool`, `true` = speech) and the
wall-clock time at which the loop processes it, in integer milliseconds. -/

/-- A captured audio frame: VAD speech classification and processing time
in milliseconds. -/
abbrev Frame := Bool × Nat

/-- The silence-break test `time.time() - self._last_voice_time >
self.silence_duration` (times in milliseconds, `Nat` subtraction truncates
exactly where the real-valued difference would be negative and hence also
below the non-negative threshold). -/
def brkB (sil lv : Nat) (f : Frame) : Bool :=
  decide (sil < f.2 - lv)

/-- The body of the `while self.recording` loop of
`VoiceRecorder._record_until_silence`, run over a frame sequence while the
recording flag stays true: each frame is appended to the accumulator first;
a speech frame then resets `_last_voice_time` to its own time; a silence
frame ends the segment when the time since the last voice exceeds the
silence timeout.  Returns the accumulated frames and whether the segment
was ended by the silence timeout (`true`) or the input was exhausted while
still recording (`false`). -/
def segUntil (sil : Nat) : Nat → List Frame → List Frame × Bool
  | _, [] => ([], false)
  | lv, f :: rest =>
    if f.1 then
      let r := segUntil sil f.2 rest
      (f :: r.1, r.2)
    else if brkB sil lv f then ([f], true)
    else
      let r := segUntil sil lv rest
      (f :: r.1, r.2)

/-- The value of `_last_voice_time` after an all-speech frame run starting
from `lv`: each speech frame overwrites it with its own time. -/
def lastVoiceAfter (lv : Nat) (sp : List Frame) : Nat :=
  sp.foldl (fun _ f => f.2) lv

/-- `np.concatenate(audio)` raises `ValueError` when `audio` is the empty
list; modelled as `none`.  Frames are abstract, so a successful
concatenation is the frame list itself. -/
def npConcat (audio : List Frame) : Option (List Frame) :=
  if audio.isEmpty then none else some audio

/-- `VoiceRecorder._record_until_silence` in a run where the recording flag
is (or becomes) false at the loop-head check after `stopAfter` frames have
been processed: the loop accumulates at most `stopAfter` frames (fewer if
the silence timeout fires first) and the function ends with
`np.concatenate(audio)`. -/
def recordStop (sil lv : Nat) (frames : List Frame) (stopAfter : Nat) :
    Option (List Frame) :=
  npConcat (segUntil sil lv (frames.take stopAfter)).1

/-! ## Controller loop (`VoiceRecorder._run_loop`)

The loop is driven by the sequence of raw transcripts returned by
successive `_record_until_silence`/`_transcribe` cycles.  One iteration
emits the statuses `"Listening..."` (from `_record_until_silence`) and
`"Transcribing..."` (from `_transcribe`), then dispatches the normalised
transcript.  Exhaustion of the transcript list models a `stop()` request
observed at the loop-head check, after which the final block emits
`"Stopped."`. -/

/-- The observable outcome of one iteration of `_run_loop`: the value of
`empty_count` afterwards, the statuses emitted during the iteration in
order, the transcript-callback invocation, the persona-select invocation,
whether the loop terminated via the auto-stop `return`, and whether the
iteration was a command (`continue`, which skips both the auto-stop check
and the single-shot check). -/
structure IterOut where
  ec : Nat
  sts : List String
  call : Option String
  persona : Option String
  done : Bool
  isCmd : Bool
deriving DecidableEq, Repr

/-- One iteration of the `while self.recording` loop of
`VoiceRecorder._run_loop`, given the current `empty_count` and the raw
transcript produced by this cycle. -/
def runIter (maxE : Nat) (ec : Nat) (raw : String) : IterOut :=
  let t := normalizeText raw
  match matchSwitchSwap t.data with
  | some g =>
    let p := String.mk (sanitize g)
    { ec := ec
      sts := ["Listening...", "Transcribing...", "Switched to " ++ p]
      call := none, persona := some p, done := false, isCmd := true }
  | none =>
    if t = "" then
      let ec' := ec + 1
      let silent := "Silent (" ++ toString ec' ++ "/" ++ toString maxE ++ ")"
      if maxE ≤ ec' then
        { ec := ec', sts := ["Listening...", "Transcribing...", silent, "Stopped."]
          call := none, persona := none, done := true, isCmd := false }
      else
        { ec := ec', sts := ["Listening...", "Transcribing...", silent]
          call := none, persona := none, done := false, isCmd := false }
    else
      if maxE ≤ 0 then
        { ec := 0, sts := ["Listening...", "Transcribing...", "Stopped."]
          call := some t, persona := none, done := true, isCmd := false }
      else
        { ec := 0, sts := ["Listening...", "Transcribing..."]
          call := some t, persona := none, done := false, isCmd := false }

/-- The observable trace of a whole `_run_loop` session: all statuses in
emission order, all transcript-callback arguments in order, all
persona-select arguments in order. -/
structure RunResult where
  statuses : List String
  calls : List String
  personas : List String
deriving DecidableEq, Repr

/-- `VoiceRecorder._run_loop` over a list of raw transcripts, starting from
`empty_count = ec`.  A command iteration always loops again (`continue`);
otherwise the auto-stop `return` skips the final `"Stopped."` block (the
status was already emitted inside), and in single-shot mode (`cont = false`)
the loop `break`s to the final block. -/
def runLoopFrom (cont : Bool) (maxE : Nat) : List String → Nat → RunResult
  | [], _ => { statuses := ["Stopped."], calls := [], personas := [] }
  | raw :: rest, ec =>
    let o := runIter maxE ec raw
    if o.done then
      { statuses := o.sts, calls := o.call.toList, personas := o.persona.toList }
    else if o.isCmd || cont then
      let r := runLoopFrom cont maxE rest o.ec
      { statuses := o.sts ++ r.statuses
        calls := o.call.toList ++ r.calls
        personas := o.persona.toList ++ r.personas }
    else
      { statuses := o.sts ++ ["Stopped."]
        calls := o.call.toList, personas := o.persona.toList }

/-- A full session: `_run_loop` starts with `empty_count = 0`. -/
def runLoop (cont : Bool) (maxE : Nat) (raws : List String) : RunResult :=
  runLoopFrom cont maxE raws 0

/-- The values of `empty_count` at successive loop-head checks while the
session is still running (the controller is not Stopped). -/
def ecHeads (cont : Bool) (maxE : Nat) : List String → Nat → List Nat
  | [], ec => [ec]
  | raw :: rest, ec =>
    let o := runIter maxE ec raw
    if o.done then [ec]
    else if o.isCmd || cont then ec :: ecHeads cont maxE rest o.ec
    else [ec]

example :
    runLoop true 3 ["", "", ""] =
      { statuses := ["Listening...", "Transcribing...", "Silent (1/3)",
                     "Listening...", "Transcribing...", "Silent (2/3)",
                     "Listening...", "Transcribing...", "Silent (3/3)",
                     "Stopped."],
        calls := [], personas := [] } := by decide

example :
    runLoop false 3 ["switch to aria", "hello"] =
      { statuses := ["Listening...", "Transcribing...", "Switched to aria",
                     "Listening...", "Transcribing...", "Stopped."],
        calls := ["hello"], personas := ["aria"] } := by decide

/-! ## Session control surface
(`VoiceRecorder.start_recording_async` / `VoiceRecorder.stop`)

Streams are opened only inside `_record_until_silence` by the worker
thread, so the number of worker threads is the number of active sessions.
Callbacks are opaque and identified by a tag. -/

/-- The cross-call state of a `VoiceRecorder` relevant to session control:
the `recording` flag, the stored `status_callback` (an opaque tag, `none`
when absent), the number of worker threads started, and the number of
already-recording warnings logged. -/
structure RecorderSys where
  recording : Bool
  statusCallback : Option Nat
  threads : Nat
  warnings : Nat
deriving DecidableEq, Repr

/-- `VoiceRecorder.start_recording_async(callback, on_status)`: when already
recording it only logs a warning and returns; otherwise it sets the
recording flag, stores the status callback and starts one worker thread. -/
def start_recording_async (s : RecorderSys) (onStatus : Option Nat) :
    RecorderSys :=
  if s.recording then { s with warnings := s.warnings + 1 }
  else { s with recording := true, statusCallback := onStatus,
                threads := s.threads + 1 }

/-- `VoiceRecorder.stop()`: clears the recording flag. -/
def stopRecorder (s : RecorderSys) : RecorderSys :=
  { s with recording := false }

/-! ## Typed command path (`ChatInput.send_message`) -/

/-- The observable outcome of one `ChatInput.send_message` call: whether the
entry was cleared, the persona name passed to
`PersonaService.select_persona` (if any), and the message posted to the
chat window (if any). -/
structure SendOut where
  cleared : Bool
  persona : Option String
  posted : Option String
deriving DecidableEq, Repr

/-- `ChatInput.send_message` on the current entry text: strip; an empty
result returns before touching anything; otherwise the entry is cleared,
the lowercased message is matched against the command grammar, and a match
selects the persona `match.group(1).strip()` (no character sanitisation)
without posting, while a non-match posts the stripped message. -/
def send_message (raw : String) : SendOut :=
  let message := String.mk (pyStrip raw.data)
  if message = "" then { cleared := false, persona := none, posted := none }
  else
    match matchSwitchSwap (pyLower message.data) with
    | some g =>
      { cleared := true, persona := some (String.mk (pyStrip g)), posted := none }
    | none =>
      { cleared := true, persona := none, posted := some message }

example : send_message "switch to aria!!" =
    { cleared := true, persona := some "aria!!", posted := none } := by decide
example : send_message "   " =
    { cleared := false, persona := none, posted := none } := by decide
example : send_message "  Hello World  " =
    { cleared := true, persona := none, posted := some "Hello World" } := by decide

/-! ## Segmenter lemmas -/

/-- Unfolding of `segUntil` on a cons cell. -/
theorem segUntil_cons (sil lv : Nat) (f : Frame) (rest : List Frame) :
    segUntil sil lv (f :: rest) =
      if f.1 then
        ((f :: (segUntil sil f.2 rest).1), (segUntil sil f.2 rest).2)
      else if brkB sil lv f then ([f], true)
      else ((f :: (segUntil sil lv rest).1), (segUntil sil lv rest).2) := rfl

/-- A run of speech-classified frames is accumulated wholesale; each one
resets the last-voice timestamp to its own time, so the loop continues on
the remaining frames with `_last_voice_time` equal to the time of the last
speech frame. -/
theorem segUntil_speech_append (sil : Nat) (sp : List Frame) :
    ∀ (lv : Nat) (rest : List Frame), (∀ f ∈ sp, f.1 = true) →
      segUntil sil lv (sp ++ rest) =
        (sp ++ (segUntil sil (lastVoiceAfter lv sp) rest).1,
         (segUntil sil (lastVoiceAfter lv sp) rest).2) := by
  induction sp with
  | nil =>
    intro lv rest _
    simp [lastVoiceAfter]
  | cons f sp ih =>
    intro lv rest h
    have hf : f.1 = true := h f (List.mem_cons_self f sp)
    have hla : lastVoiceAfter lv (f :: sp) = lastVoiceAfter f.2 sp := rfl
    have hstep := segUntil_cons sil lv f (sp ++ rest)
    rw [if_pos hf] at hstep
    have hrec := ih f.2 rest (fun g hg => h g (List.mem_cons_of_mem f hg))
    simp only [List.cons_append, hstep, hrec, hla, List.cons_append]

/-- On an all-silence frame run, the segment ends exactly at the first
frame whose time puts the silence gap over the timeout: the result is the
frames before the boundary plus that boundary frame, flagged as ended by
the silence timeout. -/
theorem segUntil_silence_break (sil lv : Nat) :
    ∀ (si : List Frame) (f : Frame) (rest : List Frame),
      (∀ g ∈ si, g.1 = false) →
      si.dropWhile (fun g => !(brkB sil lv g)) = f :: rest →
      segUntil sil lv si =
        (si.takeWhile (fun g => !(brkB sil lv g)) ++ [f], true) := by
  intro si
  induction si with
  | nil =>
    intro f rest _ hdrop
    simp [List.dropWhile] at hdrop
  | cons g si ih =>
    intro f rest h hdrop
    have hg : g.1 = false := h g (List.mem_cons_self g si)
    cases hb : brkB sil lv g with
    | true =>
      simp only [List.dropWhile_cons, hb] at hdrop
      simp only [Bool.not_true, Bool.false_eq_true, if_false,
        List.cons.injEq] at hdrop
      obtain ⟨hfg, hrest⟩ := hdrop
      subst hfg
      rw [segUntil_cons, hg]
      simp [List.takeWhile_cons, hb]
    | false =>
      simp only [List.dropWhile_cons, hb, Bool.not_false, if_true] at hdrop
      have hrec := ih f rest (fun x hx => h x (List.mem_cons_of_mem g hx)) hdrop
      rw [segUntil_cons, hg]
      simp [List.takeWhile_cons, hb, hrec]

/-- C1: endpointing correctness of `VoiceRecorder._record_until_silence`.
For every frame sequence whose first ten frames are classified speech and
whose remaining frames are classified silence, the segment loop returns
exactly one utterance consisting of the speech frames followed by the
silence frames up to and including the first frame at which the time since
the last speech-classified frame exceeds the silence timeout, ending via
the timeout branch, and accumulates no further frames; moreover a
speech-classified frame only resets the last-voice timestamp and never by
itself ends the segment. -/
theorem C1_endpointing (sil lv0 : Nat) (sp si rest : List Frame) (f : Frame)
    (hsp : ∀ g ∈ sp, g.1 = true) (hlen : sp.length = 10)
    (hsi : ∀ g ∈ si, g.1 = false)
    (hdrop : si.dropWhile (fun g => !(brkB sil (lastVoiceAfter lv0 sp) g))
              = f :: rest) :
    segUntil sil lv0 (sp ++ si) =
      (sp ++ (si.takeWhile (fun g => !(brkB sil (lastVoiceAfter lv0 sp) g))
              ++ [f]), true) ∧
    (∀ (lv t : Nat) (fs : List Frame),
      segUntil sil lv ((true, t) :: fs) =
        ((true, t) :: (segUntil sil t fs).1, (segUntil sil t fs).2)) := by
  constructor
  · rw [segUntil_speech_append sil sp lv0 si hsp,
        segUntil_silence_break sil (lastVoiceAfter lv0 sp) si f rest hsi hdrop]
  · intro lv t fs
    rw [segUntil_cons]
    rfl

/-- C1 witness: a concrete session with ten speech frames at a 30 ms
cadence and a 4000 ms silence timeout; the boundary frame is the silence
frame at 4320 ms (gap 4020 ms over the last speech frame at 300 ms). -/
theorem C1_endpointing_witness :
    ((∀ g ∈ ([(true, 30), (true, 60), (true, 90), (true, 120), (true, 150),
              (true, 180), (true, 210), (true, 240), (true, 270), (true, 300)]
             : List Frame), g.1 = true) ∧
     ([(true, 30), (true, 60), (true, 90), (true, 120), (true, 150),
       (true, 180), (true, 210), (true, 240), (true, 270), (true, 300)]
      : List Frame).length = 10 ∧
     (∀ g ∈ ([(false, 4300), (false, 4320), (false, 4350)] : List Frame),
       g.1 = false) ∧
     ([(false, 4300), (false, 4320), (false, 4350)] : List Frame).dropWhile
        (fun g => !(brkB 4000 (lastVoiceAfter 0
          [(true, 30), (true, 60), (true, 90), (true, 120), (true, 150),
           (true, 180), (true, 210), (true, 240), (true, 270), (true, 300)]) g))
        = [(false, 4320), (false, 4350)]) ∧
    (segUntil 4000 0
        ([(true, 30), (true, 60), (true, 90), (true, 120), (true, 150),
          (true, 180), (true, 210), (true, 240), (true, 270), (true, 300)] ++
         [(false, 4300), (false, 4320), (false, 4350)]) =
      ([(true, 30), (true, 60), (true, 90), (true, 120), (true, 150),
        (true, 180), (true, 210), (true, 240), (true, 270), (true, 300)] ++
       (([(false, 4300), (false, 4320), (false, 4350)] : List Frame).takeWhile
          (fun g => !(brkB 4000 (lastVoiceAfter 0
            [(true, 30), (true, 60), (true, 90), (true, 120), (true, 150),
             (true, 180), (true, 210), (true, 240), (true, 270), (true, 300)]) g))
        ++ [(false, 4320)]), true) ∧
     (∀ (lv t : Nat) (fs : List Frame),
       segUntil 4000 lv ((true, t) :: fs) =
         ((true, t) :: (segUntil 4000 t fs).1, (segUntil 4000 t fs).2))) :=
  ⟨⟨by decide, by decide, by decide, by decide⟩,
   C1_endpointing 4000 0
     [(true, 30), (true, 60), (true, 90), (true, 120), (true, 150),
      (true, 180), (true, 210), (true, 240), (true, 270), (true, 300)]
     [(false, 4300), (false, 4320), (false, 4350)]
     [(false, 4350)] (false, 4320)
     (by decide) (by decide) (by decide) (by decide)⟩

/-! ## Controller loop lemmas -/

/-- A transcript that does not match the command grammar never takes the
`continue` branch. -/
theorem runIter_not_cmd (maxE ec : Nat) (raw : String)
    (h : matchSwitchSwap (normalizeText raw).data = none) :
    (runIter maxE ec raw).isCmd = false := by
  simp only [runIter, h]
  split_ifs <;> rfl

/-- When an iteration terminates the loop via the auto-stop `return`, the
last status it emitted is the final `"Stopped."`. -/
theorem runIter_done_last (maxE ec : Nat) (raw : String)
    (h : (runIter maxE ec raw).done = true) :
    (runIter maxE ec raw).sts.getLast? = some "Stopped." := by
  cases hm : matchSwitchSwap (normalizeText raw).data with
  | some g => simp [runIter, hm] at h
  | none =>
    simp only [runIter, hm] at h ⊢
    split_ifs at h ⊢ <;> simp_all

/-- C2 counterexample: in a single-shot session (continuousMode=false) whose
first utterance is a voice command, the loop `continue`s past the
single-shot check, captures a second utterance, and dispatches it, so the
controller does not stop after one utterance. -/
theorem C2_singleshot_cex :
    (runLoop false 3 ["switch to aria", "hello"]).calls = ["hello"] ∧
    (runLoop false 3 ["switch to aria", "hello"]).personas = ["aria"] := by
  decide

/-- C2 (amended): with continuousMode=false, after one utterance whose
transcript is empty or a normal message the controller stops — the outcome
of the session does not depend on any later utterances and the final status
is `"Stopped."`.  (A command transcript instead `continue`s and the session
keeps capturing.) -/
theorem C2_singleshot (maxE : Nat) (raw : String) (rest : List String)
    (h : matchSwitchSwap (normalizeText raw).data = none) :
    runLoopFrom false maxE (raw :: rest) 0 = runLoopFrom false maxE [raw] 0 ∧
    (runLoopFrom false maxE (raw :: rest) 0).statuses.getLast?
      = some "Stopped." := by
  have hcmd := runIter_not_cmd maxE 0 raw h
  cases hd : (runIter maxE 0 raw).done with
  | true =>
    constructor
    · simp [runLoopFrom, hd]
    · simp only [runLoopFrom, hd]
      simpa using runIter_done_last maxE 0 raw hd
  | false =>
    constructor
    · simp [runLoopFrom, hd, hcmd]
    · simp only [runLoopFrom, hd, hcmd]
      simp [List.getLast?_concat]

/-- C2 witness at a concrete single-shot session. -/
theorem C2_singleshot_witness :
    matchSwitchSwap (normalizeText "hello").data = none ∧
    (runLoopFrom false 3 ["hello", "world"] 0 = runLoopFrom false 3 ["hello"] 0 ∧
     (runLoopFrom false 3 ["hello", "world"] 0).statuses.getLast?
       = some "Stopped.") :=
  ⟨by decide, C2_singleshot 3 "hello" ["world"] (by decide)⟩

/-- C3 counterexample: a command transcript does not reset `empty_count` to
zero — with one prior empty loop the counter stays at 1 after the command
(the claim asserts it becomes 0). -/
theorem C3_command_counter_cex :
    (runIter 3 1 "switch to aria").ec = 1 ∧
    ¬ (runIter 3 1 "switch to aria").ec = 0 := by decide

/-- C3 (amended): for every transcript matching the command grammar, the
iteration invokes the persona-select capability with the sanitised name,
emits a status update reporting the switch, invokes no transcript callback,
and leaves EmptyLoopCounter unchanged (it neither resets it to zero nor
increments it). -/
theorem C3_command_dispatch (maxE ec : Nat) (raw : String) (g : List Char)
    (h : matchSwitchSwap (normalizeText raw).data = some g) :
    runIter maxE ec raw =
      { ec := ec,
        sts := ["Listening...", "Transcribing...",
                "Switched to " ++ String.mk (sanitize g)],
        call := none, persona := some (String.mk (sanitize g)),
        done := false, isCmd := true } := by
  simp [runIter, h]

/-- C3 witness at a concrete command transcript with a dirty suffix. -/
theorem C3_command_dispatch_witness :
    matchSwitchSwap (normalizeText "switch to aria!!").data
      = some "aria!!".data ∧
    runIter 3 1 "switch to aria!!" =
      { ec := 1,
        sts := ["Listening...", "Transcribing...",
                "Switched to " ++ String.mk (sanitize "aria!!".data)],
        call := none, persona := some (String.mk (sanitize "aria!!".data)),
        done := false, isCmd := true } :=
  ⟨by decide, C3_command_dispatch 3 1 "switch to aria!!" "aria!!".data (by decide)⟩

/-- C4 counterexample: a session with maxEmptyLoops=3 containing three
consecutive empty transcripts (after an earlier silent loop and a non-empty
utterance) reaches Stopped but emits `"Silent (1/3)"` twice, so the four
statuses are not received exactly once each. -/
theorem C4_autostop_cex :
    (runLoop true 3 ["", "hi", "", "", ""]).statuses.count "Silent (1/3)" = 2 ∧
    (runLoop true 3 ["", "hi", "", "", ""]).statuses.getLast?
      = some "Stopped." := by decide

/-- C4 (amended): for every session with maxEmptyLoops=3 whose first three
dispatched transcripts are empty, the controller reaches Stopped; the
status callback receives `"Silent (1/3)"`, `"Silent (2/3)"`,
`"Silent (3/3)"`, `"Stopped."` exactly once each, in that order, with no
status emitted after the final `"Stopped."`, and no transcript callback is
invoked. -/
theorem C4_autostop (rest : List String) :
    (runLoop true 3 (["", "", ""] ++ rest)).statuses =
      ["Listening...", "Transcribing...", "Silent (1/3)",
       "Listening...", "Transcribing...", "Silent (2/3)",
       "Listening...", "Transcribing...", "Silent (3/3)", "Stopped."] ∧
    (runLoop true 3 (["", "", ""] ++ rest)).statuses.filter
        (fun s => s == "Silent (1/3)" || s == "Silent (2/3)" ||
                  s == "Silent (3/3)" || s == "Stopped.")
      = ["Silent (1/3)", "Silent (2/3)", "Silent (3/3)", "Stopped."] ∧
    (runLoop true 3 (["", "", ""] ++ rest)).statuses.getLast?
      = some "Stopped." ∧
    (runLoop true 3 (["", "", ""] ++ rest)).calls = [] := by
  have h : runLoop true 3 (["", "", ""] ++ rest) =
      { statuses := ["Listening...", "Transcribing...", "Silent (1/3)",
                     "Listening...", "Transcribing...", "Silent (2/3)",
                     "Listening...", "Transcribing...", "Silent (3/3)",
                     "Stopped."],
        calls := [], personas := [] } := rfl
  refine ⟨?_, ?_, ?_, ?_⟩ <;> rw [h] <;> decide

/-- C4 witness at a concrete session continuation. -/
theorem C4_autostop_witness :
    (runLoop true 3 (["", "", ""] ++ ["hi"])).statuses =
      ["Listening...", "Transcribing...", "Silent (1/3)",
       "Listening...", "Transcribing...", "Silent (2/3)",
       "Listening...", "Transcribing...", "Silent (3/3)", "Stopped."] ∧
    (runLoop true 3 (["", "", ""] ++ ["hi"])).statuses.filter
        (fun s => s == "Silent (1/3)" || s == "Silent (2/3)" ||
                  s == "Silent (3/3)" || s == "Stopped.")
      = ["Silent (1/3)", "Silent (2/3)", "Silent (3/3)", "Stopped."] ∧
    (runLoop true 3 (["", "", ""] ++ ["hi"])).statuses.getLast?
      = some "Stopped." ∧
    (runLoop true 3 (["", "", ""] ++ ["hi"])).calls = [] :=
  C4_autostop ["hi"]

/-- C5 counterexample: the voice pipeline lowercases the transcript before
the command match, so input "Switch to Aria" yields the persona name
"aria", not "Aria" as the claim states. -/
theorem C5_parse_cex :
    voiceParse "Switch to Aria" = some "aria" ∧
    ¬ voiceParse "Switch to Aria" = some "Aria" := by decide

/-- C5 (amended): input "Switch to Aria" is matched with extracted persona
"aria" (the match runs on the lowercased text); input "swap   to  aria!!"
is matched with sanitised persona "aria"; input "switching to aria" is not
matched and falls through to normal transcript dispatch. -/
theorem C5_parse :
    voiceParse "Switch to Aria" = some "aria" ∧
    voiceParse "swap   to  aria!!" = some "aria" ∧
    voiceParse "switching to aria" = none ∧
    (runIter 3 0 "switching to aria").call = some "switching to aria" ∧
    (runIter 3 0 "switching to aria").isCmd = false := by decide

/-- C6 counterexample: the transcript callback receives the normalised
(stripped, lowercased) transcript, not the raw transcript text. -/
theorem C6_normal_cex :
    (runLoop true 3 ["Hello World"]).calls = ["hello world"] ∧
    ¬ ("hello world" : String) = "Hello World" := by decide

/-- C6 (amended): for every transcript whose normalised text is non-empty
and does not match the command grammar, the transcript callback is invoked
exactly once with the normalised (trimmed, lowercased) transcript text,
and EmptyLoopCounter is reset to zero. -/
theorem C6_normal_dispatch (maxE ec : Nat) (raw : String)
    (h1 : ¬ normalizeText raw = "")
    (h2 : matchSwitchSwap (normalizeText raw).data = none) :
    (runIter maxE ec raw).call = some (normalizeText raw) ∧
    (runIter maxE ec raw).ec = 0 ∧
    (runLoopFrom true maxE [raw] ec).calls = [normalizeText raw] := by
  refine ⟨?_, ?_, ?_⟩
  · simp only [runIter, h1, h2]
    split_ifs <;> simp_all
  · simp only [runIter, h1, h2]
    split_ifs <;> simp_all
  · by_cases hm : maxE ≤ 0
    · simp [runLoopFrom, runIter, h1, h2, hm]
    · simp [runLoopFrom, runIter, h1, h2, hm]

/-- C6 witness at a concrete non-command transcript. -/
theorem C6_normal_dispatch_witness :
    (¬ normalizeText "Hello World" = "") ∧
    matchSwitchSwap (normalizeText "Hello World").data = none ∧
    ((runIter 3 2 "Hello World").call = some (normalizeText "Hello World") ∧
     (runIter 3 2 "Hello World").ec = 0 ∧
     (runLoopFrom true 3 ["Hello World"] 2).calls
       = [normalizeText "Hello World"]) :=
  ⟨by decide, by decide, C6_normal_dispatch 3 2 "Hello World" (by decide) (by decide)⟩

/-- The segmenter accumulator is non-empty as soon as one frame has been
processed. -/
theorem segUntil_fst_ne_nil (sil lv : Nat) (f : Frame) (fs : List Frame) :
    ¬ (segUntil sil lv (f :: fs)).1 = [] := by
  rw [segUntil_cons]
  split_ifs <;> simp

/-- C7 counterexample: when the recording flag becomes false before any
frame has been accumulated, `np.concatenate(audio)` is applied to an empty
list and raises (modelled as `none`), so the segmenter does not return
without error. -/
theorem C7_abandon_cex : recordStop 4000 0 [(false, 100)] 0 = none := by decide

/-- C7 (amended): whenever the recording flag becomes false mid-segment
after at least one frame has been accumulated, the segmenter returns the
abandoned non-empty utterance without error; every utterance completed via
the silence timeout (the only ones handed to transcription) contains at
least one frame; a run-loop iteration that observes the cleared recording
flag dispatches nothing; but if the flag becomes false before any frame has
been accumulated, the final concatenation step raises. -/
theorem C7_abandon (sil lv : Nat) (frames : List Frame) (k : Nat)
    (hk : 0 < k) (hf : ¬ frames = []) :
    (∃ u, recordStop sil lv frames k = some u ∧ ¬ u = []) ∧
    (∀ fs : List Frame, (segUntil sil lv fs).2 = true →
      ¬ (segUntil sil lv fs).1 = []) ∧
    (∀ (c : Bool) (m e : Nat), (runLoopFrom c m [] e).calls = []) ∧
    recordStop sil lv frames 0 = none := by
  refine ⟨?_, ?_, ?_, ?_⟩
  · obtain ⟨f, fs, rfl⟩ := List.exists_cons_of_ne_nil hf
    obtain ⟨k', rfl⟩ :=
      Nat.exists_eq_succ_of_ne_zero (Nat.pos_iff_ne_zero.mp hk)
    cases hsg : (segUntil sil lv (f :: List.take k' fs)).1 with
    | nil => exact absurd hsg (segUntil_fst_ne_nil sil lv f (List.take k' fs))
    | cons a as =>
      refine ⟨a :: as, ?_, by simp⟩
      simp [recordStop, List.take_succ_cons, npConcat, hsg]
  · intro fs hsb
    cases fs with
    | nil => simp [segUntil] at hsb
    | cons f fs' => exact segUntil_fst_ne_nil sil lv f fs'
  · intro c m e
    rfl
  · simp [recordStop, npConcat, segUntil]

/-- C7 witness at a concrete stop-after-one-frame segment. -/
theorem C7_abandon_witness :
    0 < 1 ∧ (¬ ([((true : Bool), 30)] : List Frame) = []) ∧
    ((∃ u, recordStop 4000 0 [((true : Bool), 30)] 1 = some u ∧ ¬ u = []) ∧
     (∀ fs : List Frame, (segUntil 4000 0 fs).2 = true →
       ¬ (segUntil 4000 0 fs).1 = []) ∧
     (∀ (c : Bool) (m e : Nat), (runLoopFrom c m [] e).calls = []) ∧
     recordStop 4000 0 [((true : Bool), 30)] 0 = none) :=
  ⟨by decide, by decide, C7_abandon 4000 0 [((true : Bool), 30)] 1 (by decide) (by decide)⟩

/-- A running (not auto-stopped) iteration keeps `empty_count` strictly
below `max_empty_loops`. -/
theorem runIter_ec_preserve (maxE ec : Nat) (raw : String)
    (h : ec < maxE) (hnd : (runIter maxE ec raw).done = false) :
    (runIter maxE ec raw).ec < maxE := by
  cases hm : matchSwitchSwap (normalizeText raw).data with
  | some g =>
    simpa [runIter, hm] using h
  | none =>
    simp only [runIter, hm] at hnd ⊢
    split_ifs at hnd ⊢ <;> simp_all <;> omega

/-- Every `empty_count` value observed at a running loop-head check stays
strictly below `max_empty_loops`. -/
theorem ecHeads_bounded (cont : Bool) (maxE : Nat) :
    ∀ (raws : List String) (ec : Nat), ec < maxE →
      ∀ e ∈ ecHeads cont maxE raws ec, e < maxE := by
  intro raws
  induction raws with
  | nil =>
    intro ec h e he
    simp [ecHeads] at he
    omega
  | cons raw rest ih =>
    intro ec h e he
    simp only [ecHeads] at he
    by_cases hd : (runIter maxE ec raw).done = true
    · simp [hd] at he
      omega
    · have hnd : (runIter maxE ec raw).done = false := by
        cases hx : (runIter maxE ec raw).done
        · rfl
        · exact absurd hx hd
      by_cases hc : ((runIter maxE ec raw).isCmd || cont) = true
      · simp [hnd, hc] at he
        rcases he with rfl | he
        · exact h
        · exact ih (runIter maxE ec raw).ec
            (runIter_ec_preserve maxE ec raw h hnd) e he
      · simp [hnd, hc] at he
        omega

/-- C8: counter invariant.  In every session, at every loop-head check at
which the controller is still running, EmptyLoopCounter is at most
maxEmptyLoops; and whenever an iteration starting below the bound brings
the counter up to maxEmptyLoops, that iteration terminates the loop
(auto-stop). -/
theorem C8_counter_invariant (cont : Bool) (maxE : Nat) (raws : List String)
    (h : 0 < maxE) :
    (∀ e ∈ ecHeads cont maxE raws 0, e ≤ maxE) ∧
    (∀ (ec : Nat) (raw : String), ec < maxE →
      maxE ≤ (runIter maxE ec raw).ec → (runIter maxE ec raw).done = true) := by
  constructor
  · intro e he
    exact Nat.le_of_lt (ecHeads_bounded cont maxE raws 0 h e he)
  · intro ec raw hlt hge
    by_contra hnd
    have hnd' : (runIter maxE ec raw).done = false := by
      cases hx : (runIter maxE ec raw).done
      · rfl
      · exact absurd hx hnd
    have := runIter_ec_preserve maxE ec raw hlt hnd'
    omega

/-- C8 witness at a concrete session. -/
theorem C8_counter_invariant_witness :
    0 < 3 ∧
    ((∀ e ∈ ecHeads true 3 ["", "hi", ""] 0, e ≤ 3) ∧
     (∀ (ec : Nat) (raw : String), ec < 3 →
       3 ≤ (runIter 3 ec raw).ec → (runIter 3 ec raw).done = true)) :=
  ⟨by decide, C8_counter_invariant true 3 ["", "hi", ""] (by decide)⟩

/-- C9: idempotent start.  A `start_recording_async` call on an already
recording session changes nothing except logging one more warning — the
recording flag, the stored status callback and the worker-thread count are
untouched — while the first call started exactly one worker thread, so two
successive starts yield exactly one active session. -/
theorem C9_idempotent_start (s : RecorderSys) (os1 os2 : Option Nat)
    (h : s.recording = false) :
    start_recording_async (start_recording_async s os1) os2 =
      { start_recording_async s os1 with
          warnings := (start_recording_async s os1).warnings + 1 } ∧
    (start_recording_async s os1).recording = true ∧
    (start_recording_async s os1).statusCallback = os1 ∧
    (start_recording_async s os1).threads = s.threads + 1 := by
  simp [start_recording_async, h]

/-- C9 witness at a concrete idle recorder. -/
theorem C9_idempotent_start_witness :
    (({ recording := false, statusCallback := none, threads := 0,
        warnings := 0 } : RecorderSys).recording = false) ∧
    (start_recording_async
        (start_recording_async
          ({ recording := false, statusCallback := none, threads := 0,
             warnings := 0 } : RecorderSys) (some 1)) (some 2) =
      { start_recording_async
          ({ recording := false, statusCallback := none, threads := 0,
             warnings := 0 } : RecorderSys) (some 1) with
          warnings := (start_recording_async
            ({ recording := false, statusCallback := none, threads := 0,
               warnings := 0 } : RecorderSys) (some 1)).warnings + 1 } ∧
     (start_recording_async
        ({ recording := false, statusCallback := none, threads := 0,
           warnings := 0 } : RecorderSys) (some 1)).recording = true ∧
     (start_recording_async
        ({ recording := false, statusCallback := none, threads := 0,
           warnings := 0 } : RecorderSys) (some 1)).statusCallback = some 1 ∧
     (start_recording_async
        ({ recording := false, statusCallback := none, threads := 0,
           warnings := 0 } : RecorderSys) (some 1)).threads =
       ({ recording := false, statusCallback := none, threads := 0,
          warnings := 0 } : RecorderSys).threads + 1) :=
  ⟨rfl, C9_idempotent_start
    { recording := false, statusCallback := none, threads := 0, warnings := 0 }
    (some 1) (some 2) rfl⟩

/-- C10: typed command path.  For every typed message whose stripped,
lowercased form matches the command grammar, the persona name passed to
`PersonaService.select_persona` is the lowercased captured suffix with only
surrounding whitespace trimmed (characters outside word characters,
whitespace and hyphen are preserved — no sanitisation, unlike the voice
path), and the message is not posted to the chat window; a whitespace-only
message is a complete no-op. -/
theorem C10_typed_command (raw : String) (g : List Char)
    (h : matchSwitchSwap (pyLower (pyStrip raw.data)) = some g) :
    send_message raw =
      { cleared := true, persona := some (String.mk (pyStrip g)),
        posted := none } ∧
    (∀ w : String, String.mk (pyStrip w.data) = "" →
      send_message w = { cleared := false, persona := none, posted := none }) ∧
    send_message "switch to aria!!" =
      { cleared := true, persona := some "aria!!", posted := none } ∧
    sanitize "aria!!".data = "aria".data := by
  refine ⟨?_, ?_, by decide, by decide⟩
  · have hne : ¬ (String.mk (pyStrip raw.data) = "") := by
      intro heq
      have hdata : pyStrip raw.data = [] := congrArg String.data heq
      rw [hdata] at h
      rw [show matchSwitchSwap (pyLower []) = none from rfl] at h
      exact Option.noConfusion h
    have hmd : (String.mk (pyStrip raw.data)).data = pyStrip raw.data := rfl
    simp [send_message, hne, hmd, h]
  · intro w hw
    simp [send_message, hw]

/-- C10 witness at a concrete typed command with a non-word suffix. -/
theorem C10_typed_command_witness :
    matchSwitchSwap (pyLower (pyStrip ("switch to aria!!" : String).data))
      = some "aria!!".data ∧
    (send_message "switch to aria!!" =
      { cleared := true, persona := some (String.mk (pyStrip "aria!!".data)),
        posted := none } ∧
     (∀ w : String, String.mk (pyStrip w.data) = "" →
       send_message w = { cleared := false, persona := none, posted := none }) ∧
     send_message "switch to aria!!" =
       { cleared := true, persona := some "aria!!", posted := none } ∧
     sanitize "aria!!".data = "aria".data) :=
  ⟨by decide, C10_typed_command "switch to aria!!" "aria!!".data (by decide)⟩

end NeuraForm
